import Mathlib

/-!
Shallow embedding of the moltis control-plane gateway
(crates/gateway/src: methods.rs, state.rs, ws.rs, server.rs),
with the protocol constants and frame shapes of the `moltis_protocol`
crate modelled from the specification where that crate's sources are
not available.
-/

namespace Moltis

-- ── Protocol constants and shapes (crate `moltis_protocol`) ──────────────────

/-- Modelled from the spec: the error-code token `INVALID_REQUEST`
(`moltis_protocol::error_codes`, crate sources not available). -/
def INVALID_REQUEST : String := "INVALID_REQUEST"

/-- Modelled from the spec: scope name `admin` of the closed scope set
(`moltis_protocol::scopes::ADMIN`, crate sources not available). -/
def scopeADMIN : String := "admin"

/-- Modelled from the spec: scope name `operator.read`. -/
def scopeREAD : String := "operator.read"

/-- Modelled from the spec: scope name `operator.write`. -/
def scopeWRITE : String := "operator.write"

/-- Modelled from the spec: scope name `operator.approvals`. -/
def scopeAPPROVALS : String := "operator.approvals"

/-- Modelled from the spec: scope name `operator.pairing`. -/
def scopePAIRING : String := "operator.pairing"

/-- Modelled from the spec: the advertised protocol version, a single
unsigned integer (`moltis_protocol::PROTOCOL_VERSION`, crate sources not
available; the spec's scenarios use a server advertising protocol 1). -/
def PROTOCOL_VERSION : Nat := 1

/-- Modelled from the spec: dedupe-cache TTL in milliseconds
(`moltis_protocol::DEDUPE_TTL_MS`, crate sources not available; the exact
value is not given by the spec, only that it is a positive duration). -/
def DEDUPE_TTL_MS : Nat := 30000

/-- Modelled from the spec: dedupe-cache maximum entry count
(`moltis_protocol::DEDUPE_MAX_ENTRIES`, crate sources not available; the
spec says "a few thousand"). -/
def DEDUPE_MAX_ENTRIES : Nat := 1000

/-- Modelled from the spec: the error shape
`{code, message, data?}` (`moltis_protocol::ErrorShape`; the optional
`data` field is never set by the gateway code embedded here). -/
structure ErrorShape where
  code : String
  message : String
deriving DecidableEq, Repr

/-- `ErrorShape::new(code, message)`. -/
def ErrorShape.new (code message : String) : ErrorShape := ⟨code, message⟩

-- ── JSON values ──────────────────────────────────────────────────────────────

/-- A shallow model of `serde_json::Value`, sufficient for the payloads the
gateway constructs. -/
inductive Json where
  | null : Json
  | bool (b : Bool) : Json
  | num (n : Nat) : Json
  | str (s : String) : Json
  | arr (xs : List Json) : Json
  | obj (fields : List (String × Json)) : Json

/-- Look up a field of a JSON object (`None` on non-objects / missing key). -/
def Json.lookupField : Json → String → Option Json
  | .obj fields, key => fields.lookup key
  | _, _ => none

-- ── Scope authorization (methods.rs) ─────────────────────────────────────────

/-- `NODE_METHODS`: methods that only the `node` role can call. -/
def NODE_METHODS : List String := ["node.invoke.result", "node.event", "skills.bins"]

/-- `READ_METHODS`: methods requiring `operator.read` (or higher). -/
def READ_METHODS : List String := [
  "health",
  "logs.tail",
  "channels.status",
  "status",
  "usage.status",
  "usage.cost",
  "tts.status",
  "tts.providers",
  "models.list",
  "agents.list",
  "agent.identity.get",
  "skills.status",
  "voicewake.get",
  "sessions.list",
  "sessions.preview",
  "cron.list",
  "cron.status",
  "cron.runs",
  "system-presence",
  "last-heartbeat",
  "node.list",
  "node.describe",
  "chat.history"]

/-- `WRITE_METHODS`: methods requiring `operator.write`. -/
def WRITE_METHODS : List String := [
  "send",
  "agent",
  "agent.wait",
  "wake",
  "talk.mode",
  "tts.enable",
  "tts.disable",
  "tts.convert",
  "tts.setProvider",
  "voicewake.set",
  "node.invoke",
  "chat.send",
  "chat.abort",
  "browser.request"]

/-- `APPROVAL_METHODS`: methods requiring `operator.approvals`. -/
def APPROVAL_METHODS : List String := ["exec.approval.request", "exec.approval.resolve"]

/-- `PAIRING_METHODS`: methods requiring `operator.pairing`. -/
def PAIRING_METHODS : List String := [
  "node.pair.request",
  "node.pair.list",
  "node.pair.approve",
  "node.pair.reject",
  "node.pair.verify",
  "device.pair.list",
  "device.pair.approve",
  "device.pair.reject",
  "device.token.rotate",
  "device.token.revoke",
  "node.rename"]

/-- `is_in(method, list)`. -/
def is_in (method : String) (list : List String) : Bool :=
  list.contains method

/-- `has_scope`-style check used inside `authorize_method`:
`scopes.iter().any(|s| s == scope)`. -/
def hasScope (scopes : List String) (scope : String) : Bool :=
  scopes.any (fun s => s == scope)

/-- `authorize_method(method, role, scopes)` from methods.rs: check role +
scopes for a method; returns `none` if authorized, `some error` if not. -/
def authorize_method (method role : String) (scopes : List String) : Option ErrorShape :=
  -- Node role: only node-specific methods.
  if is_in method NODE_METHODS then
    if role = "node" then none
    else some (ErrorShape.new INVALID_REQUEST ("unauthorized role: " ++ role))
  else if role = "node" then
    some (ErrorShape.new INVALID_REQUEST ("unauthorized role: " ++ role))
  else if role ≠ "operator" then
    some (ErrorShape.new INVALID_REQUEST ("unauthorized role: " ++ role))
  -- Admin scope grants everything.
  else if hasScope scopes scopeADMIN then none
  else if is_in method APPROVAL_METHODS && !(hasScope scopes scopeAPPROVALS) then
    some (ErrorShape.new INVALID_REQUEST "missing scope: operator.approvals")
  else if is_in method PAIRING_METHODS && !(hasScope scopes scopePAIRING) then
    some (ErrorShape.new INVALID_REQUEST "missing scope: operator.pairing")
  else if is_in method READ_METHODS
      && !(hasScope scopes scopeREAD || hasScope scopes scopeWRITE) then
    some (ErrorShape.new INVALID_REQUEST "missing scope: operator.read")
  else if is_in method WRITE_METHODS && !(hasScope scopes scopeWRITE) then
    some (ErrorShape.new INVALID_REQUEST "missing scope: operator.write")
  -- Known authorized methods — pass through.
  else if is_in method APPROVAL_METHODS || is_in method PAIRING_METHODS
      || is_in method READ_METHODS || is_in method WRITE_METHODS then
    none
  -- Everything else requires admin.
  else
    some (ErrorShape.new INVALID_REQUEST "missing scope: operator.admin")

-- ── The spec's authorization predicate (for the refinement claims) ───────────

/-- From the spec's words (claim side, for comparison with
`authorize_method`): the specific scope required by `m`'s classification is
present in `s` — approvals, pairing, read (also satisfied by
`operator.write`), or write. -/
def specRequiredScopePresent (m : String) (s : List String) : Bool :=
  (is_in m APPROVAL_METHODS && hasScope s scopeAPPROVALS)
  || (is_in m PAIRING_METHODS && hasScope s scopePAIRING)
  || (is_in m READ_METHODS && (hasScope s scopeREAD || hasScope s scopeWRITE))
  || (is_in m WRITE_METHODS && hasScope s scopeWRITE)

/-- From the spec's words (claim side): `authorize(m, r, s)` permits iff
either `r == "node"` and `m` is node-only, or `r == "operator"` and
(`admin ∈ s` or the specific scope required by `m`'s classification is in
`s`). -/
def specPermits (m r : String) (s : List String) : Bool :=
  (decide (r = "node") && is_in m NODE_METHODS)
  || (decide (r = "operator") && (hasScope s scopeADMIN || specRequiredScopePresent m s))

/-- The amended permit predicate: same as `specPermits` except that the
operator disjunct additionally requires `m` not to be node-only. -/
def specPermitsAmended (m r : String) (s : List String) : Bool :=
  (decide (r = "node") && is_in m NODE_METHODS)
  || (decide (r = "operator") && !(is_in m NODE_METHODS)
      && (hasScope s scopeADMIN || specRequiredScopePresent m s))

-- ── Association-list model of std::collections::HashMap ─────────────────────

/-- `HashMap::insert` semantics on an association list: replace the entry
with the given key if present, otherwise add the new entry. -/
def hmInsert {α : Type} : List (String × α) → String → α → List (String × α)
  | [], k, v => [(k, v)]
  | (k', v') :: rest, k, v =>
    if k' == k then (k, v) :: rest else (k', v') :: hmInsert rest k v

/-- `HashMap::remove` semantics on an association list: drop the entry with
the given key (keys are unique, so at most one entry matches). -/
def hmErase {α : Type} : List (String × α) → String → List (String × α)
  | [], _ => []
  | (k', v') :: rest, k => if k' == k then rest else (k', v') :: hmErase rest k

-- ── Dedupe cache (state.rs) ──────────────────────────────────────────────────

/-- `DedupeEntry`: idempotency cache entry (source field `_inserted_at`);
`Instant` timestamps are modelled as `Nat` milliseconds. -/
structure DedupeEntry where
  _inserted_at : Nat
deriving DecidableEq, Repr

/-- `DedupeCache`: simple TTL-based idempotency cache; the `HashMap` of
entries is modelled as an association list with unique keys. -/
structure DedupeCache where
  entries : List (String × DedupeEntry)
  ttl : Nat
  max_entries : Nat
deriving DecidableEq, Repr

/-- `DedupeCache::new()`. -/
def DedupeCache.new : DedupeCache :=
  { entries := [], ttl := DEDUPE_TTL_MS, max_entries := DEDUPE_MAX_ENTRIES }

/-- `DedupeCache::evict_expired`, with `now` the current time in ms: the
cutoff `Instant::now() - self.ttl` is truncated subtraction (time does not
go below the epoch), and entries with `_inserted_at > cutoff` are retained. -/
def DedupeCache.evict_expired (c : DedupeCache) (now : Nat) : DedupeCache :=
  { c with entries := c.entries.filter (fun kv => now - c.ttl < kv.2._inserted_at) }

/-- `self.entries.iter().min_by_key(|(_, v)| v._inserted_at)`: an entry of
minimal insertion time. `HashMap` iteration order is unspecified, so any
minimal entry refines the source; this model keeps the first minimal one. -/
def minByInsertedAt : List (String × DedupeEntry) → Option (String × DedupeEntry)
  | [] => none
  | kv :: rest =>
    some (match minByInsertedAt rest with
      | none => kv
      | some best => if kv.2._inserted_at ≤ best.2._inserted_at then kv else best)

/-- `DedupeCache::check_and_insert(key)` at time `now`: returns true if the
key is a duplicate (already seen within TTL), together with the updated
cache (the `&mut self` side effect made explicit). -/
def DedupeCache.check_and_insert (c : DedupeCache) (key : String) (now : Nat) :
    Bool × DedupeCache :=
  let c := c.evict_expired now
  if (c.entries.lookup key).isSome then (true, c)
  else
    let c :=
      if c.max_entries ≤ c.entries.length then
        -- Evict oldest entry.
        match minByInsertedAt c.entries with
        | some oldest => { c with entries := hmErase c.entries oldest.1 }
        | none => c
      else c
    (false, { c with entries := hmInsert c.entries key ⟨now⟩ })

/-- A sequence of `check_and_insert` calls (key and call time), threading the
cache through. -/
def runDedupe (c : DedupeCache) (ops : List (String × Nat)) : DedupeCache :=
  ops.foldl (fun c op => (c.check_and_insert op.1 op.2).2) c

-- ── Connected clients and gateway state (state.rs) ───────────────────────────

/-- Modelled from the spec: the client identity `{id, version}` inside
`ConnectParams` (`moltis_protocol`, crate sources not available). -/
structure ClientInfo where
  id : String
  version : String
deriving DecidableEq, Repr

/-- Modelled from the spec: `ConnectParams` — client identity, optional
role (default "operator"), optional scopes, supported protocol range
(`moltis_protocol`, crate sources not available). -/
structure ConnectParams where
  client : ClientInfo
  role : Option String
  scopes : Option (List String)
  min_protocol : Nat
  max_protocol : Nat
deriving DecidableEq, Repr

/-- `ConnectedClient` from state.rs: a WebSocket client currently connected
to the gateway. The outbound mpsc sender is transport state and is not part
of this model; `connected_at` is a `Nat` timestamp. -/
structure ConnectedClient where
  conn_id : String
  connect_params : ConnectParams
  connected_at : Nat
deriving DecidableEq, Repr

/-- `ConnectedClient::role()`. -/
def ConnectedClient.role (c : ConnectedClient) : String :=
  c.connect_params.role.getD "operator"

/-- `ConnectedClient::scopes()`. -/
def ConnectedClient.scopes (c : ConnectedClient) : List String :=
  c.connect_params.scopes.getD []

/-- `2^64`: the modulus of the `u64` sequence counter. -/
def U64_MOD : Nat := 2 ^ 64

/-- `GatewayState` from state.rs: clients keyed by conn_id (a `HashMap`,
modelled as an association list), the `AtomicU64` seq counter (a `Nat`
kept below `2^64`), the dedupe cache, server version and hostname. -/
structure GatewayState where
  clients : List (String × ConnectedClient)
  seq : Nat
  dedupe : DedupeCache
  version : String
  hostname : String

/-- `GatewayState::next_seq`: `self.seq.fetch_add(1, Ordering::Relaxed) + 1`
with `u64` wrap-around — returns the incremented counter value, which is
also the new stored counter. The state change of the atomic is made
explicit. -/
def GatewayState.next_seq (s : GatewayState) : Nat × GatewayState :=
  let v := (s.seq + 1) % U64_MOD
  (v, { s with seq := v })

/-- `GatewayState::register_client`:
`self.clients.write().await.insert(conn_id, client)`. -/
def GatewayState.register_client (s : GatewayState) (client : ConnectedClient) :
    GatewayState :=
  { s with clients := hmInsert s.clients client.conn_id client }

/-- `GatewayState::remove_client`: remove a client by conn_id, returning the
removed client if found. -/
def GatewayState.remove_client (s : GatewayState) (conn_id : String) :
    Option ConnectedClient × GatewayState :=
  (s.clients.lookup conn_id, { s with clients := hmErase s.clients conn_id })

/-- `GatewayState::client_count`: number of connected clients. -/
def GatewayState.client_count (s : GatewayState) : Nat :=
  s.clients.length

/-- Iterate `next_seq` n times (successive calls on the shared counter). -/
def iterSeq (st : GatewayState) : Nat → GatewayState
  | 0 => st
  | n + 1 => (iterSeq st n).next_seq.2

-- ── Frames (moltis_protocol, modelled from the spec) ─────────────────────────

/-- Modelled from the spec: the response frame
`{type:"response", id, ok, result?, error?}` (`moltis_protocol`, crate
sources not available). -/
structure ResponseFrame where
  id : String
  ok : Bool
  result : Option Json
  error : Option ErrorShape

/-- `ResponseFrame::ok(id, result)` (named `okResp` because `ok` is the
field name). -/
def ResponseFrame.okResp (id : String) (result : Json) : ResponseFrame :=
  { id := id, ok := true, result := some result, error := none }

/-- `ResponseFrame::err(id, error)`. -/
def ResponseFrame.errResp (id : String) (error : ErrorShape) : ResponseFrame :=
  { id := id, ok := false, result := none, error := some error }

/-- Modelled from the spec: the event frame `{type:"event", name, data, seq}`
(`moltis_protocol::EventFrame`, crate sources not available). -/
structure EventFrame where
  name : String
  data : Json
  seq : Nat

-- ── Method registry and dispatch (methods.rs) ────────────────────────────────

/-- `MethodContext`: context passed to every method handler. -/
structure MethodContext where
  request_id : String
  method : String
  params : Json
  client_conn_id : String
  client_role : String
  client_scopes : List String
  state : GatewayState

/-- `HandlerFn`: a method handler; the `async` future is collapsed to its
result since every embedded handler is non-blocking. -/
def HandlerFn : Type := MethodContext → Except ErrorShape Json

/-- `MethodRegistry`: name-indexed handlers (a `HashMap`, modelled as an
association list). -/
structure MethodRegistry where
  handlers : List (String × HandlerFn)

/-- `MethodRegistry::register`. -/
def MethodRegistry.register (reg : MethodRegistry) (method : String)
    (handler : HandlerFn) : MethodRegistry :=
  { handlers := hmInsert reg.handlers method handler }

/-- `MethodRegistry::dispatch`: authorize, look up handler, call, return
response frame. -/
def MethodRegistry.dispatch (reg : MethodRegistry) (ctx : MethodContext) :
    ResponseFrame :=
  match authorize_method ctx.method ctx.client_role ctx.client_scopes with
  | some err => ResponseFrame.errResp ctx.request_id err
  | none =>
    match reg.handlers.lookup ctx.method with
    | none =>
      ResponseFrame.errResp ctx.request_id
        (ErrorShape.new INVALID_REQUEST ("unknown method: " ++ ctx.method))
    | some handler =>
      match handler ctx with
      | .ok payload => ResponseFrame.okResp ctx.request_id payload
      | .error err => ResponseFrame.errResp ctx.request_id err

/-- Insert a string into a sorted list (helper for `method_names`). -/
def insertSorted (x : String) : List String → List String
  | [] => [x]
  | y :: t => if x ≤ y then x :: y :: t else y :: insertSorted x t

/-- Sort a list of strings (the source uses `names.sort()`; the sorting
algorithm itself is irrelevant, only sortedness). -/
def sortStrings (l : List String) : List String :=
  l.foldr insertSorted []

/-- `MethodRegistry::method_names`: all registered method names, sorted. -/
def MethodRegistry.method_names (reg : MethodRegistry) : List String :=
  sortStrings (reg.handlers.map Prod.fst)

/-- The `health` handler from `register_defaults`. -/
def healthHandler : HandlerFn := fun ctx =>
  .ok (Json.obj [
    ("status", Json.str "ok"),
    ("version", Json.str ctx.state.version),
    ("connections", Json.num ctx.state.client_count)])

/-- The `status` handler from `register_defaults`. -/
def statusHandler : HandlerFn := fun ctx =>
  .ok (Json.obj [
    ("version", Json.str ctx.state.version),
    ("hostname", Json.str ctx.state.hostname),
    ("connections", Json.num ctx.state.client_count)])

/-- The stub handler from `register_defaults`: returns a placeholder object
so the method is known. -/
def stubHandler : HandlerFn := fun _ =>
  .ok (Json.obj [("stub", Json.bool true)])

/-- The `stub_methods` array of `register_defaults`. -/
def STUB_METHODS : List String := [
  "channels.status",
  "channels.logout",
  "agent",
  "agent.wait",
  "agent.identity.get",
  "send",
  "wake",
  "sessions.list",
  "sessions.preview",
  "sessions.resolve",
  "sessions.patch",
  "sessions.reset",
  "sessions.delete",
  "sessions.compact",
  "config.get",
  "config.set",
  "config.apply",
  "config.patch",
  "config.schema",
  "cron.list",
  "cron.status",
  "cron.add",
  "cron.update",
  "cron.remove",
  "cron.run",
  "cron.runs",
  "models.list",
  "agents.list",
  "skills.status",
  "skills.bins",
  "skills.install",
  "skills.update",
  "node.list",
  "node.describe",
  "node.invoke",
  "node.invoke.result",
  "node.event",
  "node.pair.request",
  "node.pair.list",
  "node.pair.approve",
  "node.pair.reject",
  "node.pair.verify",
  "node.rename",
  "device.pair.list",
  "device.pair.approve",
  "device.pair.reject",
  "device.token.rotate",
  "device.token.revoke",
  "exec.approvals.get",
  "exec.approvals.set",
  "exec.approvals.node.get",
  "exec.approvals.node.set",
  "exec.approval.request",
  "exec.approval.resolve",
  "logs.tail",
  "chat.history",
  "chat.send",
  "chat.abort",
  "chat.inject",
  "talk.mode",
  "tts.status",
  "tts.providers",
  "tts.enable",
  "tts.disable",
  "tts.convert",
  "tts.setProvider",
  "voicewake.get",
  "voicewake.set",
  "browser.request",
  "usage.status",
  "usage.cost",
  "update.run",
  "system-presence",
  "system-event",
  "last-heartbeat",
  "set-heartbeats",
  "wizard.start",
  "wizard.next",
  "wizard.cancel",
  "wizard.status",
  "web.login.start",
  "web.login.wait"]

/-- `MethodRegistry::register_defaults`: register `health`, `status` and the
stub handlers. -/
def MethodRegistry.register_defaults (reg : MethodRegistry) : MethodRegistry :=
  let reg := reg.register "health" healthHandler
  let reg := reg.register "status" statusHandler
  STUB_METHODS.foldl (fun r m => r.register m stubHandler) reg

/-- `MethodRegistry::new()`: an empty registry with the defaults
registered. -/
def MethodRegistry.new : MethodRegistry :=
  MethodRegistry.register_defaults { handlers := [] }

-- ── Handshake (ws.rs) ────────────────────────────────────────────────────────

/-- `ServerInfo` inside `HelloOk` (fields as constructed in ws.rs). -/
structure ServerInfo where
  version : String
  commit : Option String
  host : Option String
  conn_id : String
deriving DecidableEq, Repr

/-- `Features` inside `HelloOk` (fields as constructed in ws.rs). -/
structure Features where
  methods : List String
  events : List String
deriving DecidableEq, Repr

/-- `HelloOk` (fields as constructed in ws.rs; `snapshot` and `policy` are
opaque JSON objects). -/
structure HelloOk where
  type : String
  protocol : Nat
  server : ServerInfo
  features : Features
  snapshot : Json
  canvas_host_url : Option String
  auth : Option Json
  policy : Json

/-- The event names advertised in the `HelloOk` features (ws.rs). -/
def GATEWAY_EVENTS : List String := [
  "tick",
  "shutdown",
  "agent",
  "chat",
  "presence",
  "health",
  "exec.approval.requested",
  "exec.approval.resolved",
  "device.pair.requested",
  "device.pair.resolved",
  "node.pair.requested",
  "node.pair.resolved",
  "node.invoke.request"]

/-- Modelled from the spec: `Policy::default_policy()` — the default policy
object sent in `HelloOk` (`moltis_protocol`, crate sources not available;
its contents are opaque to the handshake logic). -/
def defaultPolicy : Json := Json.obj []

/-- Serialize an optional string the way serde does (`None` ↦ `null`). -/
def optStrJson : Option String → Json
  | none => Json.null
  | some s => Json.str s

/-- `serde_json::to_value(&hello)`: the JSON value of a `HelloOk`. -/
def HelloOk.toJson (h : HelloOk) : Json :=
  Json.obj [
    ("type", Json.str h.type),
    ("protocol", Json.num h.protocol),
    ("server", Json.obj [
      ("version", Json.str h.server.version),
      ("commit", optStrJson h.server.commit),
      ("host", optStrJson h.server.host),
      ("conn_id", Json.str h.server.conn_id)]),
    ("features", Json.obj [
      ("methods", Json.arr (h.features.methods.map Json.str)),
      ("events", Json.arr (h.features.events.map Json.str))]),
    ("snapshot", h.snapshot),
    ("canvas_host_url", optStrJson h.canvas_host_url),
    ("auth", h.auth.getD Json.null),
    ("policy", h.policy)]

/-- The protocol-validation and registration step of `handle_connection`
(ws.rs lines 44–137), after the first frame has been parsed into a
`connect` request `(request_id, params)` and a fresh `conn_id` has been
assigned: on protocol mismatch send one error response and stop without
registering; otherwise send the `hello-ok` response and register the
client. Returns the response frames sent and the resulting state. -/
def handshake (state : GatewayState) (methods : MethodRegistry)
    (conn_id request_id : String) (params : ConnectParams) (now : Nat) :
    List ResponseFrame × GatewayState :=
  -- Validate protocol version.
  if params.min_protocol > PROTOCOL_VERSION ∨ params.max_protocol < PROTOCOL_VERSION then
    ([ResponseFrame.errResp request_id (ErrorShape.new INVALID_REQUEST
        ("protocol mismatch: server=" ++ toString PROTOCOL_VERSION
          ++ ", client=" ++ toString params.min_protocol ++ "-"
          ++ toString params.max_protocol))],
     state)
  else
    -- Build and send HelloOk, then register the client.
    let hello : HelloOk := {
      type := "hello-ok"
      protocol := PROTOCOL_VERSION
      server := {
        version := state.version
        commit := none
        host := some state.hostname
        conn_id := conn_id }
      features := {
        methods := methods.method_names
        events := GATEWAY_EVENTS }
      snapshot := Json.obj []
      canvas_host_url := none
      auth := none
      policy := defaultPolicy }
    let client : ConnectedClient := {
      conn_id := conn_id
      connect_params := params
      connected_at := now }
    ([ResponseFrame.okResp request_id hello.toJson],
     state.register_client client)

-- ── Broadcast / event sequencing (spec §4.7 and ws.rs message loop) ──────────

/-- Modelled from the spec: one seq-consuming emission of the gateway.
`broadcast` is a tick/`emit` fan-out (crate file broadcast.rs not
available: per the spec it assigns `seq = GatewayState.next_seq()`,
serializes once and pushes to every registered peer's queue); `connError`
is the per-connection decode-error event of the ws.rs message loop, which
also consumes `state.next_seq()` but is sent only to the one peer. -/
inductive GwOp where
  | broadcast : GwOp
  | connError (conn : String) : GwOp
deriving DecidableEq, Repr

/-- The sequencing-relevant projection of the gateway during a run: the seq
counter and, per registered peer, the list of seq values delivered to that
peer (in delivery order). -/
structure BcastState where
  seq : Nat
  delivered : List (String × List Nat)
deriving DecidableEq, Repr

/-- Append a seq value to one peer's delivered list. -/
def pushTo (delivered : List (String × List Nat)) (conn : String) (v : Nat) :
    List (String × List Nat) :=
  delivered.map (fun kv => if kv.1 == conn then (kv.1, kv.2 ++ [v]) else kv)

/-- One emission step: draw `next_seq` (the same `(seq + 1) % 2^64` as
`GatewayState::next_seq`), then deliver the value to every peer
(`broadcast`) or to the one peer (`connError`). -/
def BcastState.step (st : BcastState) (op : GwOp) : BcastState :=
  let v := (st.seq + 1) % U64_MOD
  match op with
  | .broadcast =>
    { seq := v, delivered := st.delivered.map (fun kv => (kv.1, kv.2 ++ [v])) }
  | .connError c =>
    { seq := v, delivered := pushTo st.delivered c v }

/-- The state at process start with a fixed set of registered peers: seq
counter 0, nothing delivered. -/
def BcastState.init (peers : List String) : BcastState :=
  { seq := 0, delivered := peers.map (fun p => (p, [])) }

/-- Run a trace of emissions. -/
def runOps (st : BcastState) (ops : List GwOp) : BcastState :=
  ops.foldl BcastState.step st

/-- The seq values a peer has received, in delivery order. -/
def receivedSeqs (st : BcastState) (conn : String) : List Nat :=
  (st.delivered.lookup conn).getD []

/-- Strictly increasing list of naturals (executable). -/
def strictIncrB : List Nat → Bool
  | [] => true
  | [_] => true
  | a :: b :: r => decide (a < b) && strictIncrB (b :: r)

/-- Contiguous list of naturals: each element is its predecessor plus one
(executable; "no gaps"). -/
def contiguousB : List Nat → Bool
  | [] => true
  | [_] => true
  | a :: b :: r => (b == a + 1) && contiguousB (b :: r)

/-- `[start, start+1, ..., start+n-1]`. -/
def seqsFrom (start : Nat) : Nat → List Nat
  | 0 => []
  | n + 1 => start :: seqsFrom (start + 1) n

-- ── Concrete fixtures used by witnesses and counterexamples ──────────────────

/-- A concrete freshly-started gateway state (seq counter 0, no clients). -/
def testState : GatewayState :=
  { clients := [], seq := 0, dedupe := DedupeCache.new,
    version := "0.1.0", hostname := "testhost" }

/-- A concrete connected operator peer. -/
def peer1 : ConnectedClient :=
  { conn_id := "c"
    connect_params := {
      client := { id := "client-1", version := "1.0" }
      role := some "operator"
      scopes := some ["operator.read"]
      min_protocol := 1
      max_protocol := 1 }
    connected_at := 0 }

/-- A second concrete peer carrying the same `conn_id` as `peer1`. -/
def peer2 : ConnectedClient :=
  { conn_id := "c"
    connect_params := {
      client := { id := "client-2", version := "1.0" }
      role := some "operator"
      scopes := none
      min_protocol := 1
      max_protocol := 1 }
    connected_at := 5 }

/-- A concrete gateway state with one connected client. -/
def testStateOneClient : GatewayState :=
  { testState with clients := hmInsert testState.clients peer1.conn_id peer1 }

/-- Concrete connect parameters advertising the disjoint range `[2,3]`. -/
def paramsMismatch : ConnectParams :=
  { client := { id := "c", version := "0" }
    role := some "operator"
    scopes := some ["operator.read"]
    min_protocol := 2
    max_protocol := 3 }

/-- Concrete connect parameters advertising the overlapping range `[1,1]`. -/
def paramsOk : ConnectParams :=
  { client := { id := "c", version := "0" }
    role := some "operator"
    scopes := some ["operator.read"]
    min_protocol := 1
    max_protocol := 1 }

/-- A dedupe cache holding exactly one key inserted at time `t` (the cache
produced by a first `check_and_insert` on the empty cache). -/
def singletonCache (key : String) (t : Nat) : DedupeCache :=
  { entries := [(key, { _inserted_at := t })]
    ttl := DEDUPE_TTL_MS
    max_entries := DEDUPE_MAX_ENTRIES }

/-- A dedupe cache at capacity: one live entry with `max_entries = 1`. -/
def fullCache : DedupeCache :=
  { entries := [("a", { _inserted_at := 3 })]
    ttl := DEDUPE_TTL_MS
    max_entries := 1 }

-- ═════════════════════════════════════ Theorems ═════════════════════════════

-- ── Disjointness of the method classification sets ───────────────────────────

theorem not_in_both {A B : List String}
    (h : A.all (fun x => !(B.contains x)) = true) {m : String} :
    ¬(is_in m A = true ∧ is_in m B = true) := by
  rintro ⟨hA, hB⟩
  have hmem : m ∈ A := List.elem_iff.mp hA
  have hfalse := List.all_eq_true.mp h m hmem
  simp only [Bool.not_eq_true'] at hfalse
  have hBc : B.contains m = true := hB
  rw [hfalse] at hBc
  cases hBc

theorem disj_AP : ∀ {m : String},
    ¬(is_in m APPROVAL_METHODS = true ∧ is_in m PAIRING_METHODS = true) :=
  not_in_both (by decide)

theorem disj_AR : ∀ {m : String},
    ¬(is_in m APPROVAL_METHODS = true ∧ is_in m READ_METHODS = true) :=
  not_in_both (by decide)

theorem disj_AW : ∀ {m : String},
    ¬(is_in m APPROVAL_METHODS = true ∧ is_in m WRITE_METHODS = true) :=
  not_in_both (by decide)

theorem disj_PR : ∀ {m : String},
    ¬(is_in m PAIRING_METHODS = true ∧ is_in m READ_METHODS = true) :=
  not_in_both (by decide)

theorem disj_PW : ∀ {m : String},
    ¬(is_in m PAIRING_METHODS = true ∧ is_in m WRITE_METHODS = true) :=
  not_in_both (by decide)

theorem disj_RW : ∀ {m : String},
    ¬(is_in m READ_METHODS = true ∧ is_in m WRITE_METHODS = true) :=
  not_in_both (by decide)

theorem bfalse_of_disj {A B : List String} {m : String}
    (h : ¬(is_in m A = true ∧ is_in m B = true)) (hA : is_in m A = true) :
    is_in m B = false := by
  cases hB : is_in m B
  · rfl
  · exact absurd ⟨hA, hB⟩ h

-- ── C1: the authorization resolver ───────────────────────────────────────────

theorem authorize_denials_invalid_request (m r : String) (s : List String) :
    ∀ e, authorize_method m r s = some e → e.code = INVALID_REQUEST := by
  unfold authorize_method
  split_ifs <;> intro e he <;> cases he <;> rfl

theorem authorize_none_iff_amended (m r : String) (s : List String) :
    authorize_method m r s = none ↔ specPermitsAmended m r s = true := by
  by_cases hN : is_in m NODE_METHODS = true
  · by_cases hr : r = "node" <;>
      simp [authorize_method, specPermitsAmended, hN, hr]
  · rw [Bool.not_eq_true] at hN
    by_cases hrn : r = "node"
    · subst hrn; simp [authorize_method, specPermitsAmended, hN]
    · by_cases hro : r = "operator"
      · subst hro
        by_cases ha : hasScope s scopeADMIN = true
        · simp [authorize_method, specPermitsAmended, hN, ha]
        · rw [Bool.not_eq_true] at ha
          by_cases hA : is_in m APPROVAL_METHODS = true
          · have hP := bfalse_of_disj disj_AP hA
            have hR := bfalse_of_disj disj_AR hA
            have hW := bfalse_of_disj disj_AW hA
            by_cases ha2 : hasScope s scopeAPPROVALS = true <;>
              simp [authorize_method, specPermitsAmended, specRequiredScopePresent,
                hN, ha, hA, hP, hR, hW, ha2]
          · rw [Bool.not_eq_true] at hA
            by_cases hP : is_in m PAIRING_METHODS = true
            · have hR := bfalse_of_disj disj_PR hP
              have hW := bfalse_of_disj disj_PW hP
              by_cases hp2 : hasScope s scopePAIRING = true <;>
                simp [authorize_method, specPermitsAmended, specRequiredScopePresent,
                  hN, ha, hA, hP, hR, hW, hp2]
            · rw [Bool.not_eq_true] at hP
              by_cases hR : is_in m READ_METHODS = true
              · have hW := bfalse_of_disj disj_RW hR
                by_cases hr3 : hasScope s scopeREAD = true
                · simp [authorize_method, specPermitsAmended, specRequiredScopePresent,
                    hN, ha, hA, hP, hR, hW, hr3]
                · rw [Bool.not_eq_true] at hr3
                  by_cases hw2 : hasScope s scopeWRITE = true <;>
                    simp [authorize_method, specPermitsAmended, specRequiredScopePresent,
                      hN, ha, hA, hP, hR, hW, hr3, hw2]
              · rw [Bool.not_eq_true] at hR
                by_cases hW : is_in m WRITE_METHODS = true
                · by_cases hw2 : hasScope s scopeWRITE = true <;>
                    simp [authorize_method, specPermitsAmended, specRequiredScopePresent,
                      hN, ha, hA, hP, hR, hW, hw2]
                · rw [Bool.not_eq_true] at hW
                  simp [authorize_method, specPermitsAmended, specRequiredScopePresent,
                    hN, ha, hA, hP, hR, hW]
      · simp [authorize_method, specPermitsAmended, hN, hrn, hro]

/-- C1 (counterexample): the claimed iff fails as stated. For the node-only
method `node.event`, role `operator` and scopes `["admin"]`, the claim's
right-hand side holds (`admin ∈ s`), yet `authorize_method` denies. -/
theorem C1_counterexample :
    specPermits "node.event" "operator" ["admin"] = true ∧
    authorize_method "node.event" "operator" ["admin"] ≠ none := by
  decide

/-- C1 (amended): `authorize_method m r s` returns `None` (permit) iff
either `r = "node"` and `m` is node-only, or `m` is NOT node-only,
`r = "operator"`, and (`admin ∈ s` or the specific scope required by `m`'s
classification — approvals, pairing, read (also satisfied by
`operator.write`), or write — is in `s`); and every denial carries code
`INVALID_REQUEST`. -/
theorem C1_authorize_method_amended (m r : String) (s : List String) :
    (authorize_method m r s = none ↔ specPermitsAmended m r s = true) ∧
    (∀ e, authorize_method m r s = some e → e.code = INVALID_REQUEST) :=
  ⟨authorize_none_iff_amended m r s, authorize_denials_invalid_request m r s⟩

/-- C1 (witness): the amended theorem applied at a concrete permitted input
and at a concrete denied input. -/
theorem C1_witness :
    authorize_method "health" "operator" ["operator.read"] = none ∧
    ∀ e, authorize_method "send" "operator" ["operator.read"] = some e →
      e.code = INVALID_REQUEST := by
  refine ⟨?_, ?_⟩
  · exact (C1_authorize_method_amended "health" "operator" ["operator.read"]).1.mpr
      (by decide)
  · exact (C1_authorize_method_amended "send" "operator" ["operator.read"]).2

-- ── C9: denied dispatch is independent of the handler table ──────────────────

/-- C9: `dispatch` checks authorization before looking up the handler, so
whenever `authorize_method` denies, the response frame is the same for any
two registries — in particular whether or not a handler named `ctx.method`
is registered, so an unauthorized caller cannot learn from the response
whether a method exists. -/
theorem C9_dispatch_denied_registry_independent (reg1 reg2 : MethodRegistry)
    (ctx : MethodContext) (e : ErrorShape)
    (h : authorize_method ctx.method ctx.client_role ctx.client_scopes = some e) :
    reg1.dispatch ctx = reg2.dispatch ctx := by
  unfold MethodRegistry.dispatch
  rw [h]

/-- C9 (witness): for the denied method `send` with scopes
`["operator.read"]`, the default registry (which has a `send` handler) and
the empty registry (which has none) produce the same response frame. -/
theorem C9_witness :
    MethodRegistry.new.dispatch
      { request_id := "3", method := "send", params := Json.null,
        client_conn_id := "conn-1", client_role := "operator",
        client_scopes := ["operator.read"], state := testState } =
    MethodRegistry.dispatch { handlers := [] }
      { request_id := "3", method := "send", params := Json.null,
        client_conn_id := "conn-1", client_role := "operator",
        client_scopes := ["operator.read"], state := testState } :=
  C9_dispatch_denied_registry_independent _ _ _
    (ErrorShape.new INVALID_REQUEST "missing scope: operator.write") (by decide)

-- ── C10: the sequence counter ────────────────────────────────────────────────

theorem iterSeq_seq (st : GatewayState) (h0 : st.seq = 0) (n : Nat) :
    (iterSeq st n).seq = n % U64_MOD := by
  induction n with
  | zero => simpa [iterSeq] using h0
  | succ k ih => simp [iterSeq, GatewayState.next_seq, ih, Nat.mod_add_mod]

/-- C10: starting from a fresh state with the counter at 0, the n-th call
of `next_seq` returns `n % 2^64` (so successive calls return 1, 2, 3, …),
each call returns one more than the previous modulo `2^64`, and before
wrap-around the returned value is exactly `n + 1` and never 0. -/
theorem C10_next_seq_consecutive (st : GatewayState) (h0 : st.seq = 0) (n : Nat) :
    (iterSeq st n).seq = n % U64_MOD ∧
    (iterSeq st n).next_seq.1 = (n + 1) % U64_MOD ∧
    (iterSeq st (n + 1)).next_seq.1 = ((iterSeq st n).next_seq.1 + 1) % U64_MOD ∧
    (n + 1 < U64_MOD →
      (iterSeq st n).next_seq.1 = n + 1 ∧ (iterSeq st n).next_seq.1 ≠ 0) := by
  have h1 := iterSeq_seq st h0 n
  have h2 := iterSeq_seq st h0 (n + 1)
  refine ⟨h1, ?_, ?_, ?_⟩
  · simp [GatewayState.next_seq, h1, Nat.mod_add_mod]
  · simp [GatewayState.next_seq, h1, h2, Nat.mod_add_mod]
  · intro hlt
    have heq : (n + 1) % U64_MOD = n + 1 := Nat.mod_eq_of_lt hlt
    constructor
    · simp [GatewayState.next_seq, h1, Nat.mod_add_mod, heq]
    · simp [GatewayState.next_seq, h1, Nat.mod_add_mod, heq]

/-- C10 (witness): from the fresh `testState`, the 6th call returns 6 and
is nonzero. -/
theorem C10_witness :
    (iterSeq testState 5).next_seq.1 = 6 ∧ (iterSeq testState 5).next_seq.1 ≠ 0 :=
  (C10_next_seq_consecutive testState rfl 5).2.2.2 (by decide)

-- ── Lookup lemmas for the HashMap model ──────────────────────────────────────

theorem hmInsert_lookup_self {α : Type} (l : List (String × α)) (k : String) (v : α) :
    (hmInsert l k v).lookup k = some v := by
  induction l with
  | nil => simp [hmInsert, List.lookup]
  | cons kv rest ih =>
    obtain ⟨k', v'⟩ := kv
    by_cases h : k' = k
    · simp [hmInsert, h, List.lookup]
    · have hb : (k' == k) = false := by simpa using h
      have hb' : (k == k') = false := by simpa using Ne.symm h
      simp [hmInsert, hb, List.lookup, hb', ih]

theorem hmInsert_lookup_other {α : Type} (l : List (String × α)) (k k' : String)
    (v : α) (h : k' ≠ k) :
    (hmInsert l k v).lookup k' = l.lookup k' := by
  induction l with
  | nil => simp [hmInsert, List.lookup, show (k' == k) = false by simpa using h]
  | cons kv rest ih =>
    obtain ⟨k0, v0⟩ := kv
    by_cases h0 : k0 = k
    · subst h0
      simp [hmInsert, List.lookup, show (k' == k0) = false by simpa using h]
    · simp [hmInsert, List.lookup, show (k0 == k) = false by simpa using h0, ih]

-- ── C6: register_client and conn_id collisions ───────────────────────────────

/-- C6 (counterexample): `register_client` DOES replace an existing entry.
With `peer1` registered under conn_id `"c"`, registering `peer2` (same
conn_id, different client identity) maps `"c"` to `peer2`, not `peer1`. -/
theorem C6_counterexample :
    (({ testState with clients := hmInsert [] "c" peer1 } : GatewayState).register_client
        peer2).clients.lookup "c" = some peer2 ∧ peer2 ≠ peer1 := by
  decide

/-- C6 (amended): `register_client` uses `HashMap::insert` semantics — the
registered client becomes the one mapped to its conn_id, replacing any
existing entry, and entries under other conn_ids are untouched. (conn_id
collisions do not occur in practice: ws.rs draws a fresh UUID per
connection.) -/
theorem C6_register_client_amended (st : GatewayState) (c : ConnectedClient) :
    (st.register_client c).clients.lookup c.conn_id = some c ∧
    (∀ id, id ≠ c.conn_id →
      (st.register_client c).clients.lookup id = st.clients.lookup id) := by
  constructor
  · exact hmInsert_lookup_self st.clients c.conn_id c
  · intro id hid
    exact hmInsert_lookup_other st.clients c.conn_id id c hid

/-- C6 (witness): the amended theorem applied to `peer2` over a state
already holding `peer1`, probing the replaced conn_id and an unrelated
one. -/
theorem C6_witness :
    (({ testState with clients := hmInsert [] "c" peer1 } : GatewayState).register_client
        peer2).clients.lookup "c" = some peer2 ∧
    (({ testState with clients := hmInsert [] "c" peer1 } : GatewayState).register_client
        peer2).clients.lookup "other" =
      ({ testState with clients := hmInsert [] "c" peer1 } : GatewayState).clients.lookup
        "other" :=
  ⟨(C6_register_client_amended _ peer2).1,
   (C6_register_client_amended _ peer2).2 "other" (by decide)⟩

-- ── C4: unknown method vs authorization order ────────────────────────────────

/-- C4 (counterexample): after a handshake with role `operator` and scopes
`["operator.read"]`, dispatching `nonexistent` does NOT return
`"unknown method: nonexistent"`: authorization runs first and the method is
in no classification set, so the response is the denial
`"missing scope: operator.admin"`. -/
theorem C4_counterexample :
    (MethodRegistry.new.dispatch
      { request_id := "4", method := "nonexistent", params := Json.null,
        client_conn_id := "conn-1", client_role := "operator",
        client_scopes := ["operator.read"], state := testState }).error =
      some (ErrorShape.new INVALID_REQUEST "missing scope: operator.admin") ∧
    some (ErrorShape.new INVALID_REQUEST "missing scope: operator.admin") ≠
      some (ErrorShape.new INVALID_REQUEST "unknown method: nonexistent") := by
  constructor
  · rfl
  · decide

/-- C4 (amended): the `"unknown method: nonexistent"` response is produced
once the caller is authorized — with role `operator` and the `admin` scope,
dispatching the unregistered method `nonexistent` returns `ok:false` with
error message `"unknown method: nonexistent"`; with scopes
`["operator.read"]` the same request yields the authorization denial
instead (see the counterexample). -/
theorem C4_unknown_method_amended :
    MethodRegistry.new.dispatch
      { request_id := "4", method := "nonexistent", params := Json.null,
        client_conn_id := "conn-1", client_role := "operator",
        client_scopes := ["admin"], state := testState } =
    ResponseFrame.errResp "4"
      (ErrorShape.new INVALID_REQUEST "unknown method: nonexistent") := by
  rfl

-- ── C5: protocol validation during the handshake ─────────────────────────────

/-- C5: during the handshake, if the client's inclusive
`[min_protocol, max_protocol]` range does not contain `PROTOCOL_VERSION`
(equivalently `min > version ∨ max < version`), the gateway sends exactly
one response frame — `ok:false` with error code `INVALID_REQUEST` — and the
state is unchanged (the peer is not registered); if the range does contain
the version, it sends exactly one ok response whose result has
`type = "hello-ok"` and registers the peer under its conn_id. -/
theorem C5_handshake_protocol_check (st : GatewayState) (methods : MethodRegistry)
    (conn_id request_id : String) (params : ConnectParams) (now : Nat) :
    (params.min_protocol > PROTOCOL_VERSION ∨ params.max_protocol < PROTOCOL_VERSION →
      ∃ e : ErrorShape, e.code = INVALID_REQUEST ∧
        (ResponseFrame.errResp request_id e).ok = false ∧
        handshake st methods conn_id request_id params now =
          ([ResponseFrame.errResp request_id e], st)) ∧
    (params.min_protocol ≤ PROTOCOL_VERSION ∧ PROTOCOL_VERSION ≤ params.max_protocol →
      ∃ hello : Json, hello.lookupField "type" = some (Json.str "hello-ok") ∧
        handshake st methods conn_id request_id params now =
          ([ResponseFrame.okResp request_id hello],
           st.register_client
             { conn_id := conn_id, connect_params := params, connected_at := now }) ∧
        (handshake st methods conn_id request_id params now).2.clients.lookup conn_id =
          some { conn_id := conn_id, connect_params := params, connected_at := now }) := by
  constructor
  · intro h
    refine ⟨ErrorShape.new INVALID_REQUEST
      ("protocol mismatch: server=" ++ toString PROTOCOL_VERSION
        ++ ", client=" ++ toString params.min_protocol ++ "-"
        ++ toString params.max_protocol), rfl, rfl, ?_⟩
    unfold handshake
    rw [if_pos h]
  · rintro ⟨h1, h2⟩
    have hcond : ¬(params.min_protocol > PROTOCOL_VERSION
        ∨ params.max_protocol < PROTOCOL_VERSION) := by omega
    refine ⟨HelloOk.toJson
      { type := "hello-ok", protocol := PROTOCOL_VERSION,
        server := { version := st.version, commit := none,
                    host := some st.hostname, conn_id := conn_id },
        features := { methods := methods.method_names, events := GATEWAY_EVENTS },
        snapshot := Json.obj [], canvas_host_url := none, auth := none,
        policy := defaultPolicy }, rfl, ?_, ?_⟩
    · unfold handshake
      rw [if_neg hcond]
    · simp only [handshake, if_neg hcond]
      exact hmInsert_lookup_self st.clients conn_id _

/-- C5 (witness): the theorem applied to a server advertising protocol 1,
once with the disjoint client range `[2,3]` and once with the overlapping
range `[1,1]`. -/
theorem C5_witness :
    (∃ e : ErrorShape, e.code = INVALID_REQUEST ∧
      (ResponseFrame.errResp "1" e).ok = false ∧
      handshake testState MethodRegistry.new "conn-1" "1" paramsMismatch 0 =
        ([ResponseFrame.errResp "1" e], testState)) ∧
    (∃ hello : Json, hello.lookupField "type" = some (Json.str "hello-ok") ∧
      handshake testState MethodRegistry.new "conn-1" "1" paramsOk 0 =
        ([ResponseFrame.okResp "1" hello],
         testState.register_client
           { conn_id := "conn-1", connect_params := paramsOk, connected_at := 0 }) ∧
      (handshake testState MethodRegistry.new "conn-1" "1" paramsOk
          0).2.clients.lookup "conn-1" =
        some { conn_id := "conn-1", connect_params := paramsOk, connected_at := 0 }) :=
  ⟨(C5_handshake_protocol_check testState MethodRegistry.new "conn-1" "1"
      paramsMismatch 0).1 (by decide),
   (C5_handshake_protocol_check testState MethodRegistry.new "conn-1" "1"
      paramsOk 0).2 ⟨by decide, by decide⟩⟩

-- ── Dedupe cache lemmas ──────────────────────────────────────────────────────

theorem minByInsertedAt_mem : ∀ (l : List (String × DedupeEntry)) (kv : String × DedupeEntry),
    minByInsertedAt l = some kv → kv ∈ l := by
  intro l
  induction l with
  | nil => intro kv h; cases h
  | cons a t ih =>
    intro kv h
    unfold minByInsertedAt at h
    injection h with h
    cases ht : minByInsertedAt t with
    | none => rw [ht] at h; subst h; exact .head _
    | some best =>
      rw [ht] at h
      dsimp only at h
      by_cases hle : a.2._inserted_at ≤ best.2._inserted_at
      · rw [if_pos hle] at h; subst h; exact .head _
      · rw [if_neg hle] at h; subst h; exact .tail _ (ih best ht)

theorem minByInsertedAt_none : ∀ {l : List (String × DedupeEntry)},
    minByInsertedAt l = none → l = [] := by
  intro l h
  cases l with
  | nil => rfl
  | cons a t => cases h

theorem minByInsertedAt_le : ∀ (l : List (String × DedupeEntry)) (kv : String × DedupeEntry),
    minByInsertedAt l = some kv →
    ∀ kv' ∈ l, kv.2._inserted_at ≤ kv'.2._inserted_at := by
  intro l
  induction l with
  | nil => intro kv h; cases h
  | cons a t ih =>
    intro kv h
    unfold minByInsertedAt at h
    injection h with h
    cases ht : minByInsertedAt t with
    | none =>
      rw [ht] at h
      subst h
      have hnil : t = [] := minByInsertedAt_none ht
      subst hnil
      intro kv' hkv'
      cases hkv' with
      | head => exact Nat.le_refl _
      | tail _ h' => cases h'
    | some best =>
      rw [ht] at h
      dsimp only at h
      by_cases hle : a.2._inserted_at ≤ best.2._inserted_at
      · rw [if_pos hle] at h
        subst h
        intro kv' hkv'
        cases hkv' with
        | head => exact Nat.le_refl _
        | tail _ h' => exact Nat.le_trans hle (ih best ht kv' h')
      · rw [if_neg hle] at h
        subst h
        intro kv' hkv'
        cases hkv' with
        | head => omega
        | tail _ h' => exact ih best ht kv' h'

theorem hmErase_length_of_mem {α : Type} :
    ∀ (l : List (String × α)) (k : String) (v : α),
    (k, v) ∈ l → (hmErase l k).length + 1 = l.length := by
  intro l
  induction l with
  | nil => intro k v h; cases h
  | cons a t ih =>
    intro k v h
    obtain ⟨k0, v0⟩ := a
    by_cases hk : k0 = k
    · subst hk; simp [hmErase]
    · have hb : (k0 == k) = false := by simpa using hk
      have hmem : (k, v) ∈ t := by
        cases h with
        | head => exact absurd rfl hk
        | tail _ h' => exact h'
      simp only [hmErase, hb, Bool.false_eq_true, if_false, List.length_cons]
      rw [← ih k v hmem]

theorem hmInsert_length_le {α : Type} :
    ∀ (l : List (String × α)) (k : String) (v : α),
    (hmInsert l k v).length ≤ l.length + 1 := by
  intro l
  induction l with
  | nil => intro k v; simp [hmInsert]
  | cons a t ih =>
    intro k v
    obtain ⟨k0, v0⟩ := a
    by_cases hk : k0 = k
    · simp [hmInsert, hk]
    · have hb : (k0 == k) = false := by simpa using hk
      simp only [hmInsert, hb, Bool.false_eq_true, if_false, List.length_cons]
      exact Nat.succ_le_succ (ih k v)

theorem check_and_insert_bound (c : DedupeCache) (key : String) (now : Nat)
    (hmax : 1 ≤ c.max_entries) (hlen : c.entries.length ≤ c.max_entries) :
    (c.check_and_insert key now).2.entries.length ≤ c.max_entries ∧
    (c.check_and_insert key now).2.max_entries = c.max_entries ∧
    (c.check_and_insert key now).2.ttl = c.ttl := by
  unfold DedupeCache.check_and_insert
  have hlen1 : (c.evict_expired now).entries.length ≤ c.max_entries := by
    calc (c.evict_expired now).entries.length
        ≤ c.entries.length := List.length_filter_le _ _
      _ ≤ c.max_entries := hlen
  by_cases hdup : ((c.evict_expired now).entries.lookup key).isSome
  · simp only [hdup, if_true]
    exact ⟨hlen1, rfl, rfl⟩
  · simp only [hdup, Bool.false_eq_true, if_false]
    by_cases hfull : (c.evict_expired now).max_entries ≤ (c.evict_expired now).entries.length
    · simp only [hfull, if_true]
      have hmaxe : (c.evict_expired now).max_entries = c.max_entries := rfl
      cases hmb : minByInsertedAt (c.evict_expired now).entries with
      | none =>
        have hnil : (c.evict_expired now).entries = [] := minByInsertedAt_none hmb
        rw [hmaxe, hnil] at hfull
        simp only [List.length_nil] at hfull
        exact absurd (Nat.le_trans hmax hfull) (by decide)
      | some oldest =>
        dsimp only
        have hmem := minByInsertedAt_mem _ _ hmb
        have herase := hmErase_length_of_mem (c.evict_expired now).entries oldest.1 oldest.2
          (by simpa using hmem)
        refine ⟨?_, rfl, rfl⟩
        calc (hmInsert (hmErase (c.evict_expired now).entries oldest.1) key
                { _inserted_at := now }).length
            ≤ (hmErase (c.evict_expired now).entries oldest.1).length + 1 :=
              hmInsert_length_le _ _ _
          _ = (c.evict_expired now).entries.length := herase
          _ ≤ c.max_entries := hlen1
    · simp only [hfull, if_false]
      push_neg at hfull
      have hmaxe : (c.evict_expired now).max_entries = c.max_entries := rfl
      rw [hmaxe] at hfull
      refine ⟨?_, rfl, rfl⟩
      calc (hmInsert (c.evict_expired now).entries key { _inserted_at := now }).length
          ≤ (c.evict_expired now).entries.length + 1 := hmInsert_length_le _ _ _
        _ ≤ c.max_entries := hfull

theorem runDedupe_bound : ∀ (ops : List (String × Nat)) (c : DedupeCache),
    1 ≤ c.max_entries → c.entries.length ≤ c.max_entries →
    (runDedupe c ops).entries.length ≤ c.max_entries := by
  intro ops
  induction ops with
  | nil => intro c h1 h2; exact h2
  | cons op rest ih =>
    intro c h1 h2
    have hb := check_and_insert_bound c op.1 op.2 h1 h2
    have := ih (c.check_and_insert op.1 op.2).2
      (by rw [hb.2.1]; exact h1) (by rw [hb.2.1]; exact hb.1)
    rw [hb.2.1] at this
    exact this

-- ── C3: the dedupe cache is bounded ──────────────────────────────────────────

/-- C3: starting from the empty cache `DedupeCache::new()`, after any
sequence of `check_and_insert` calls (each a key and a call time) the
number of entries is at most `DEDUPE_MAX_ENTRIES`, the configured
`max_entries`. -/
theorem C3_dedupe_bounded (ops : List (String × Nat)) :
    (runDedupe DedupeCache.new ops).entries.length ≤ DEDUPE_MAX_ENTRIES := by
  have h := runDedupe_bound ops DedupeCache.new (by decide) (by decide)
  simpa [DedupeCache.new] using h

-- ── More HashMap-model lemmas ────────────────────────────────────────────────

theorem hmInsert_length_of_absent {α : Type} :
    ∀ (l : List (String × α)) (k : String) (v : α),
    l.lookup k = none → (hmInsert l k v).length = l.length + 1 := by
  intro l
  induction l with
  | nil => intro k v _; rfl
  | cons a t ih =>
    intro k v h
    obtain ⟨k0, v0⟩ := a
    by_cases hk : k = k0
    · subst hk
      simp [List.lookup] at h
    · have hb : (k == k0) = false := by simpa using hk
      have hb' : (k0 == k) = false := by simpa using Ne.symm hk
      simp only [List.lookup, hb] at h
      simp only [hmInsert, hb', Bool.false_eq_true, if_false, List.length_cons]
      rw [ih k v h]

theorem hmErase_lookup_none {α : Type} :
    ∀ (l : List (String × α)) (k k' : String),
    l.lookup k = none → (hmErase l k').lookup k = none := by
  intro l
  induction l with
  | nil => intro k k' _; rfl
  | cons a t ih =>
    intro k k' h
    obtain ⟨k0, v0⟩ := a
    by_cases hk : k = k0
    · subst hk
      simp [List.lookup] at h
    · have hb : (k == k0) = false := by simpa using hk
      simp only [List.lookup, hb] at h
      by_cases he : k0 = k'
      · simp only [hmErase, show (k0 == k') = true by simpa using he, if_true]
        exact h
      · simp only [hmErase, show (k0 == k') = false by simpa using he,
          Bool.false_eq_true, if_false, List.lookup, hb]
        exact ih k k' h

-- ── C7: the check_and_insert contract ────────────────────────────────────────

/-- C7: `check_and_insert` first drops every entry whose age exceeds the
TTL, then: if the key survives, it returns `true` and the cache is exactly
the expiry-pruned cache (the entry's timestamp is NOT refreshed); otherwise
it returns `false` and inserts the key with the current timestamp — at
capacity a single entry of MINIMAL insertion time (the oldest) is evicted
first, so the resulting entries are exactly the pruned entries minus that
oldest entry plus the new key, and the entry count stays constant; below
capacity the count grows by one. Consequently two immediate calls on the
fresh cache with the same key return `false` then `true`, and a further
call after more than `DEDUPE_TTL_MS` has elapsed returns `false` again. -/
theorem C7_check_and_insert_contract :
    (∀ (c : DedupeCache) (key : String) (now : Nat),
      ((c.evict_expired now).entries.lookup key).isSome = true →
        c.check_and_insert key now = (true, c.evict_expired now)) ∧
    (∀ (c : DedupeCache) (key : String) (now : Nat),
      (c.evict_expired now).entries.lookup key = none →
        (c.check_and_insert key now).1 = false ∧
        (c.check_and_insert key now).2.entries.lookup key =
          some { _inserted_at := now }) ∧
    (∀ (c : DedupeCache) (key : String) (now : Nat),
      (c.evict_expired now).entries.lookup key = none →
      1 ≤ c.max_entries →
      (c.max_entries ≤ (c.evict_expired now).entries.length →
        (c.check_and_insert key now).2.entries.length =
          (c.evict_expired now).entries.length ∧
        ∃ oldest : String × DedupeEntry,
          oldest ∈ (c.evict_expired now).entries ∧
          (∀ kv ∈ (c.evict_expired now).entries,
            oldest.2._inserted_at ≤ kv.2._inserted_at) ∧
          (c.check_and_insert key now).2.entries =
            hmInsert (hmErase (c.evict_expired now).entries oldest.1) key
              { _inserted_at := now }) ∧
      ((c.evict_expired now).entries.length < c.max_entries →
        (c.check_and_insert key now).2.entries.length =
          (c.evict_expired now).entries.length + 1)) ∧
    (∀ (key : String) (t t' : Nat), 0 < t → t + DEDUPE_TTL_MS < t' →
      (DedupeCache.new.check_and_insert key t).1 = false ∧
      ((DedupeCache.new.check_and_insert key t).2.check_and_insert key t).1 = true ∧
      (((DedupeCache.new.check_and_insert key t).2.check_and_insert key
          t).2.check_and_insert key t').1 = false) := by
  refine ⟨?_, ?_, ?_, ?_⟩
  · intro c key now h
    unfold DedupeCache.check_and_insert
    simp only [h, if_true]
  · intro c key now h
    have hdup : ((c.evict_expired now).entries.lookup key).isSome = false := by
      rw [h]; rfl
    unfold DedupeCache.check_and_insert
    simp only [hdup, Bool.false_eq_true, if_false]
    refine ⟨trivial, ?_⟩
    split
    · split
      · exact hmInsert_lookup_self _ _ _
      · exact hmInsert_lookup_self _ _ _
    · exact hmInsert_lookup_self _ _ _
  · intro c key now h hmax
    have hdup : ((c.evict_expired now).entries.lookup key).isSome = false := by
      rw [h]; rfl
    have hmaxe : (c.evict_expired now).max_entries = c.max_entries := rfl
    unfold DedupeCache.check_and_insert
    simp only [hdup, Bool.false_eq_true, if_false]
    constructor
    · intro hfull
      simp only [hmaxe, hfull, if_true]
      cases hmb : minByInsertedAt (c.evict_expired now).entries with
      | none =>
        have hnil : (c.evict_expired now).entries = [] := minByInsertedAt_none hmb
        rw [hnil] at hfull
        simp only [List.length_nil] at hfull
        exact absurd (Nat.le_trans hmax hfull) (by decide)
      | some oldest =>
        dsimp only
        have hmem := minByInsertedAt_mem _ _ hmb
        have herase := hmErase_length_of_mem (c.evict_expired now).entries oldest.1
          oldest.2 (by simpa using hmem)
        have habs : (hmErase (c.evict_expired now).entries oldest.1).lookup key =
            none := hmErase_lookup_none _ _ _ h
        constructor
        · rw [hmInsert_length_of_absent _ _ _ habs]
          omega
        · exact ⟨oldest, hmem, minByInsertedAt_le _ _ hmb, rfl⟩
    · intro hsmall
      have hfull : ¬((c.evict_expired now).max_entries ≤
          (c.evict_expired now).entries.length) := by
        rw [hmaxe]; omega
      simp only [if_neg hfull]
      exact hmInsert_length_of_absent _ _ _ h
  · intro key t t' ht htt
    have hr1 : DedupeCache.new.check_and_insert key t = (false, singletonCache key t) :=
      rfl
    have hkeep : (decide (t - DEDUPE_TTL_MS < t)) = true := by
      simp only [decide_eq_true_eq, DEDUPE_TTL_MS]
      omega
    have hsecond : (singletonCache key t).check_and_insert key t =
        (true, singletonCache key t) := by
      unfold DedupeCache.check_and_insert DedupeCache.evict_expired singletonCache
      simp only [List.filter_cons, List.filter_nil, hkeep, if_true, List.lookup,
        beq_self_eq_true, Option.isSome_some]
    have hdrop : (decide (t' - DEDUPE_TTL_MS < t)) = false := by
      simp only [decide_eq_false_iff_not, DEDUPE_TTL_MS] at htt ⊢
      omega
    refine ⟨by rw [hr1], ?_, ?_⟩
    · rw [hr1]
      rw [hsecond]
    · rw [hr1, hsecond]
      unfold DedupeCache.check_and_insert DedupeCache.evict_expired singletonCache
      simp only [List.filter_cons, List.filter_nil, hdrop, Bool.false_eq_true,
        if_false, List.lookup, Option.isSome_none]

/-- C7 (witness): the contract applied at concrete inputs — a duplicate hit
on a one-entry cache at time 1000, a fresh insert at time 7, the growth
accounting below capacity, the at-capacity oldest-entry eviction on
`fullCache` (one live entry, `max_entries = 1`) at time 5, and the
false/true/false scenario with `t = 5` and
`t' = 30006 > t + DEDUPE_TTL_MS`. -/
theorem C7_witness :
    (singletonCache "k" 1000).check_and_insert "k" 1000 =
      (true, (singletonCache "k" 1000).evict_expired 1000) ∧
    (DedupeCache.new.check_and_insert "k" 7).2.entries.lookup "k" =
      some { _inserted_at := 7 } ∧
    (DedupeCache.new.check_and_insert "k" 7).2.entries.length =
      (DedupeCache.new.evict_expired 7).entries.length + 1 ∧
    (fullCache.check_and_insert "k" 5).2.entries.length =
      (fullCache.evict_expired 5).entries.length ∧
    (∃ oldest : String × DedupeEntry,
      oldest ∈ (fullCache.evict_expired 5).entries ∧
      (∀ kv ∈ (fullCache.evict_expired 5).entries,
        oldest.2._inserted_at ≤ kv.2._inserted_at) ∧
      (fullCache.check_and_insert "k" 5).2.entries =
        hmInsert (hmErase (fullCache.evict_expired 5).entries oldest.1) "k"
          { _inserted_at := 5 }) ∧
    (DedupeCache.new.check_and_insert "k" 5).1 = false ∧
    ((DedupeCache.new.check_and_insert "k" 5).2.check_and_insert "k" 5).1 = true ∧
    (((DedupeCache.new.check_and_insert "k" 5).2.check_and_insert "k"
        5).2.check_and_insert "k" 30006).1 = false := by
  refine ⟨?_, ?_, ?_, ?_, ?_, ?_, ?_, ?_⟩
  · exact C7_check_and_insert_contract.1 (singletonCache "k" 1000) "k" 1000 (by decide)
  · exact (C7_check_and_insert_contract.2.1 DedupeCache.new "k" 7 (by decide)).2
  · exact (C7_check_and_insert_contract.2.2.1 DedupeCache.new "k" 7 (by decide)
      (by decide)).2 (by decide)
  · exact ((C7_check_and_insert_contract.2.2.1 fullCache "k" 5 (by decide)
      (by decide)).1 (by decide)).1
  · exact ((C7_check_and_insert_contract.2.2.1 fullCache "k" 5 (by decide)
      (by decide)).1 (by decide)).2
  · exact (C7_check_and_insert_contract.2.2.2 "k" 5 30006 (by decide) (by decide)).1
  · exact (C7_check_and_insert_contract.2.2.2 "k" 5 30006 (by decide) (by decide)).2.1
  · exact (C7_check_and_insert_contract.2.2.2 "k" 5 30006 (by decide) (by decide)).2.2

-- ── C8: the default health and status handlers ───────────────────────────────

/-- C8 (counterexample): the `health` handler's result does NOT comprise the
hostname. On a state with one connected client, the health response's result
is exactly `{status, version, connections}` — looking up `"hostname"` in it
yields nothing, contradicting "each returns … the hostname". -/
theorem C8_counterexample :
    (MethodRegistry.new.dispatch
      { request_id := "2", method := "health", params := Json.null,
        client_conn_id := "conn-1", client_role := "operator",
        client_scopes := ["operator.read"], state := testStateOneClient }).result =
      some (Json.obj [
        ("status", Json.str "ok"),
        ("version", Json.str "0.1.0"),
        ("connections", Json.num 1)]) ∧
    (Json.obj [
      ("status", Json.str "ok"),
      ("version", Json.str "0.1.0"),
      ("connections", Json.num 1)]).lookupField "hostname" = none := by
  exact ⟨rfl, rfl⟩

/-- C8 (amended): the default registry registers handlers for `health` and
`status`; `health` returns live data comprising status `"ok"`, the server
version and the current connection count (no hostname), `status` returns
the version, the hostname and the connection count; and when at least one
peer is connected a `health` call returns `ok:true` with
`result.status = "ok"` and `result.connections ≥ 1`. -/
theorem C8_health_status_amended (st : GatewayState) (h1 : 1 ≤ st.client_count)
    (req conn : String) :
    MethodRegistry.new.handlers.lookup "health" = some healthHandler ∧
    MethodRegistry.new.handlers.lookup "status" = some statusHandler ∧
    MethodRegistry.new.dispatch
      { request_id := req, method := "health", params := Json.null,
        client_conn_id := conn, client_role := "operator",
        client_scopes := [scopeREAD], state := st } =
      ResponseFrame.okResp req (Json.obj [
        ("status", Json.str "ok"),
        ("version", Json.str st.version),
        ("connections", Json.num st.client_count)]) ∧
    MethodRegistry.new.dispatch
      { request_id := req, method := "status", params := Json.null,
        client_conn_id := conn, client_role := "operator",
        client_scopes := [scopeREAD], state := st } =
      ResponseFrame.okResp req (Json.obj [
        ("version", Json.str st.version),
        ("hostname", Json.str st.hostname),
        ("connections", Json.num st.client_count)]) ∧
    1 ≤ st.client_count := by
  refine ⟨rfl, rfl, rfl, rfl, h1⟩

/-- C8 (witness): the amended theorem applied to the concrete state with one
connected client. -/
theorem C8_witness :
    MethodRegistry.new.dispatch
      { request_id := "2", method := "health", params := Json.null,
        client_conn_id := "conn-1", client_role := "operator",
        client_scopes := [scopeREAD], state := testStateOneClient } =
      ResponseFrame.okResp "2" (Json.obj [
        ("status", Json.str "ok"),
        ("version", Json.str testStateOneClient.version),
        ("connections", Json.num testStateOneClient.client_count)]) ∧
    1 ≤ testStateOneClient.client_count :=
  ⟨(C8_health_status_amended testStateOneClient (by decide) "2" "conn-1").2.2.1,
   (C8_health_status_amended testStateOneClient (by decide) "2" "conn-1").2.2.2.2⟩

-- ── Lemmas about the broadcast trace model ───────────────────────────────────

theorem lookup_mem {α : Type} :
    ∀ (l : List (String × α)) (k : String) (v : α),
    l.lookup k = some v → (k, v) ∈ l := by
  intro l
  induction l with
  | nil => intro k v h; cases h
  | cons a t ih =>
    intro k v h
    obtain ⟨k0, v0⟩ := a
    by_cases hk : k = k0
    · subst hk
      simp only [List.lookup, beq_self_eq_true] at h
      injection h with h
      subst h
      exact .head _
    · simp only [List.lookup, show (k == k0) = false by simpa using hk] at h
      exact .tail _ (ih k v h)

theorem lookup_map_append (l : List (String × List Nat)) (v : Nat) (c : String) :
    (l.map (fun kv => (kv.1, kv.2 ++ [v]))).lookup c = (l.lookup c).map (· ++ [v]) := by
  induction l with
  | nil => rfl
  | cons a t ih =>
    obtain ⟨k0, l0⟩ := a
    by_cases h : c = k0
    · subst h; simp [List.lookup]
    · simp [List.lookup, show (c == k0) = false by simpa using h, ih]

theorem strictIncrB_append (l : List Nat) (v : Nat) :
    strictIncrB l = true → (∀ x ∈ l, x < v) → strictIncrB (l ++ [v]) = true := by
  induction l with
  | nil => intro _ _; rfl
  | cons a t ih =>
    intro h hall
    cases t with
    | nil =>
      simp only [List.cons_append, List.nil_append, strictIncrB,
        Bool.and_eq_true, decide_eq_true_eq]
      exact ⟨hall a (.head _), trivial⟩
    | cons b u =>
      simp only [strictIncrB, Bool.and_eq_true, decide_eq_true_eq] at h
      have ht := ih h.2 (fun x hx => hall x (.tail _ hx))
      simp only [List.cons_append, strictIncrB, Bool.and_eq_true, decide_eq_true_eq]
      exact ⟨h.1, by simpa using ht⟩

theorem strictIncrB_seqsFrom : ∀ (n s : Nat), strictIncrB (seqsFrom s n) = true := by
  intro n
  induction n with
  | zero => intro s; rfl
  | succ m ih =>
    intro s
    cases m with
    | zero => rfl
    | succ k =>
      have h2 : strictIncrB (seqsFrom (s + 1) (k + 1)) = true := ih (s + 1)
      show (decide (s < s + 1) && strictIncrB (seqsFrom (s + 1) (k + 1))) = true
      rw [h2, Bool.and_true, decide_eq_true_eq]
      omega

theorem contiguousB_seqsFrom : ∀ (n s : Nat), contiguousB (seqsFrom s n) = true := by
  intro n
  induction n with
  | zero => intro s; rfl
  | succ m ih =>
    intro s
    cases m with
    | zero => rfl
    | succ k =>
      have h2 : contiguousB (seqsFrom (s + 1) (k + 1)) = true := ih (s + 1)
      show ((s + 1 == s + 1) && contiguousB (seqsFrom (s + 1) (k + 1))) = true
      rw [h2, Bool.and_true, beq_self_eq_true]

theorem runOps_invariant : ∀ (ops : List GwOp) (st : BcastState),
    st.seq + ops.length < U64_MOD →
    (∀ kv, kv ∈ st.delivered → strictIncrB kv.2 = true ∧ ∀ x ∈ kv.2, x ≤ st.seq) →
    (runOps st ops).seq = st.seq + ops.length ∧
    (∀ kv, kv ∈ (runOps st ops).delivered →
      strictIncrB kv.2 = true ∧ ∀ x ∈ kv.2, x ≤ (runOps st ops).seq) := by
  intro ops
  induction ops with
  | nil =>
    intro st hlt hinv
    exact ⟨by simp [runOps], by simpa [runOps] using hinv⟩
  | cons op rest ih =>
    intro st hlt hinv
    have hlen : st.seq + 1 < U64_MOD := by
      simp only [List.length_cons] at hlt
      omega
    have hv : (st.seq + 1) % U64_MOD = st.seq + 1 := Nat.mod_eq_of_lt hlen
    have hstep_seq : (st.step op).seq = st.seq + 1 := by
      cases op <;> simp [BcastState.step, hv]
    have hstep_inv : ∀ kv, kv ∈ (st.step op).delivered →
        strictIncrB kv.2 = true ∧ ∀ x ∈ kv.2, x ≤ (st.step op).seq := by
      intro kv hkv
      rw [hstep_seq]
      cases op with
      | broadcast =>
        simp only [BcastState.step] at hkv
        rw [List.mem_map] at hkv
        obtain ⟨kv0, hkv0, heq⟩ := hkv
        obtain ⟨h1, h2⟩ := hinv kv0 hkv0
        rw [← heq, hv]
        constructor
        · exact strictIncrB_append kv0.2 (st.seq + 1) h1
            (fun x hx => Nat.lt_succ_of_le (h2 x hx))
        · intro x hx
          rcases List.mem_append.mp hx with hx | hx
          · exact Nat.le_succ_of_le (h2 x hx)
          · simp only [List.mem_singleton] at hx
            omega
      | connError cerr =>
        simp only [BcastState.step, pushTo] at hkv
        rw [List.mem_map] at hkv
        obtain ⟨kv0, hkv0, heq⟩ := hkv
        obtain ⟨h1, h2⟩ := hinv kv0 hkv0
        by_cases hc : (kv0.1 == cerr) = true
        · rw [hc] at heq
          simp only [if_true] at heq
          rw [← heq, hv]
          constructor
          · exact strictIncrB_append kv0.2 (st.seq + 1) h1
              (fun x hx => Nat.lt_succ_of_le (h2 x hx))
          · intro x hx
            rcases List.mem_append.mp hx with hx | hx
            · exact Nat.le_succ_of_le (h2 x hx)
            · simp only [List.mem_singleton] at hx
              omega
        · rw [Bool.not_eq_true] at hc
          rw [hc] at heq
          simp only [Bool.false_eq_true, if_false] at heq
          rw [← heq]
          exact ⟨h1, fun x hx => Nat.le_succ_of_le (h2 x hx)⟩
    have hlt' : (st.step op).seq + rest.length < U64_MOD := by
      rw [hstep_seq]
      simp only [List.length_cons] at hlt
      omega
    obtain ⟨hs, hi⟩ := ih (st.step op) hlt' hstep_inv
    refine ⟨?_, hi⟩
    show (runOps (st.step op) rest).seq = st.seq + (op :: rest).length
    rw [hs, hstep_seq, List.length_cons]
    omega

theorem init_lookup_of_mem : ∀ (peers : List String) (c : String), c ∈ peers →
    (BcastState.init peers).delivered.lookup c = some [] := by
  intro peers
  induction peers with
  | nil => intro c h; cases h
  | cons p t ih =>
    intro c h
    by_cases hc : c = p
    · subst hc
      simp [BcastState.init, List.lookup]
    · have hmem : c ∈ t := by
        cases h with
        | head => exact absurd rfl hc
        | tail _ h' => exact h'
      have := ih c hmem
      simp only [BcastState.init] at this ⊢
      simpa [List.lookup, show (c == p) = false by simpa using hc] using this

theorem runOps_broadcast_lookup : ∀ (ops : List GwOp) (st : BcastState)
    (c : String) (l : List Nat),
    (∀ op ∈ ops, op = GwOp.broadcast) →
    st.delivered.lookup c = some l →
    st.seq + ops.length < U64_MOD →
    (runOps st ops).delivered.lookup c =
      some (l ++ seqsFrom (st.seq + 1) ops.length) := by
  intro ops
  induction ops with
  | nil =>
    intro st c l _ hl _
    simpa [runOps, seqsFrom] using hl
  | cons op rest ih =>
    intro st c l hb hl hlt
    have hop : op = GwOp.broadcast := hb op (.head _)
    subst hop
    have hlen : st.seq + 1 < U64_MOD := by
      simp only [List.length_cons] at hlt
      omega
    have hv : (st.seq + 1) % U64_MOD = st.seq + 1 := Nat.mod_eq_of_lt hlen
    have hstep : (BcastState.step st GwOp.broadcast).delivered.lookup c =
        some (l ++ [st.seq + 1]) := by
      show (st.delivered.map (fun kv => (kv.1, kv.2 ++ [(st.seq + 1) % U64_MOD]))).lookup c
        = some (l ++ [st.seq + 1])
      rw [lookup_map_append, hl, hv]
      rfl
    have hseq : (BcastState.step st GwOp.broadcast).seq = st.seq + 1 := by
      simp [BcastState.step, hv]
    have hrest := ih (st.step GwOp.broadcast) c (l ++ [st.seq + 1])
      (fun o ho => hb o (.tail _ ho)) hstep
      (by rw [hseq]; simp only [List.length_cons] at hlt; omega)
    show (runOps (st.step GwOp.broadcast) rest).delivered.lookup c = _
    rw [hrest, hseq]
    simp only [List.length_cons, List.append_assoc, List.singleton_append]
    rfl

-- ── C2: seq values observed by a single peer ─────────────────────────────────

/-- C2 (counterexample): with peers A and B registered, the trace
broadcast, decode-error-to-A, broadcast delivers seqs 1 and 3 to B — the
decode-error event consumed seq 2 for A only, so B's received tail is
strictly increasing but NOT contiguous. -/
theorem C2_counterexample :
    receivedSeqs (runOps (BcastState.init ["A", "B"])
      [GwOp.broadcast, GwOp.connError "A", GwOp.broadcast]) "B" = [1, 3] ∧
    strictIncrB [1, 3] = true ∧
    contiguousB [1, 3] = false := by
  decide

/-- C2 (amended): over any trace of seq-consuming emissions (broadcasts and
per-connection decode-error events, all drawing `next_seq`, fewer than
`2^64` of them), the seq values delivered to any single peer are strictly
increasing; and when every emission is a broadcast and the peer is
registered throughout, the peer's received tail is exactly
`1, 2, …, n` — contiguous with no gaps. -/
theorem C2_seq_per_peer_amended (peers : List String) (ops : List GwOp) (c : String)
    (hlen : ops.length < U64_MOD) :
    strictIncrB (receivedSeqs (runOps (BcastState.init peers) ops) c) = true ∧
    ((∀ op ∈ ops, op = GwOp.broadcast) → c ∈ peers →
      receivedSeqs (runOps (BcastState.init peers) ops) c = seqsFrom 1 ops.length ∧
      contiguousB (receivedSeqs (runOps (BcastState.init peers) ops) c) = true) := by
  constructor
  · have hinv0 : ∀ kv, kv ∈ (BcastState.init peers).delivered →
        strictIncrB kv.2 = true ∧ ∀ x ∈ kv.2, x ≤ (BcastState.init peers).seq := by
      intro kv hkv
      simp only [BcastState.init] at hkv
      rw [List.mem_map] at hkv
      obtain ⟨p, _, heq⟩ := hkv
      rw [← heq]
      exact ⟨rfl, fun x hx => by cases hx⟩
    have hlt0 : (BcastState.init peers).seq + ops.length < U64_MOD := by
      simpa [BcastState.init] using hlen
    obtain ⟨-, hinv⟩ := runOps_invariant ops (BcastState.init peers) hlt0 hinv0
    cases hl : (runOps (BcastState.init peers) ops).delivered.lookup c with
    | none => simp [receivedSeqs, hl, strictIncrB]
    | some l =>
      have hm := lookup_mem _ _ _ hl
      have := (hinv (c, l) hm).1
      simpa [receivedSeqs, hl] using this
  · intro hb hc
    have h0 := init_lookup_of_mem peers c hc
    have hlook := runOps_broadcast_lookup ops (BcastState.init peers) c [] hb h0
      (by simpa [BcastState.init] using hlen)
    have hrecv : receivedSeqs (runOps (BcastState.init peers) ops) c =
        seqsFrom 1 ops.length := by
      have hseq0 : (BcastState.init peers).seq = 0 := rfl
      rw [hseq0] at hlook
      simp [receivedSeqs, hlook]
    exact ⟨hrecv, by rw [hrecv]; exact contiguousB_seqsFrom ops.length 1⟩

/-- C2 (witness): the amended theorem applied to peers A, B and the
two-broadcast trace — A receives exactly 1, 2, strictly increasing and
contiguous. -/
theorem C2_witness :
    strictIncrB (receivedSeqs (runOps (BcastState.init ["A", "B"])
      [GwOp.broadcast, GwOp.broadcast]) "A") = true ∧
    receivedSeqs (runOps (BcastState.init ["A", "B"])
      [GwOp.broadcast, GwOp.broadcast]) "A" = seqsFrom 1 2 ∧
    contiguousB (receivedSeqs (runOps (BcastState.init ["A", "B"])
      [GwOp.broadcast, GwOp.broadcast]) "A") = true := by
  refine ⟨(C2_seq_per_peer_amended ["A", "B"]
      [GwOp.broadcast, GwOp.broadcast] "A" (by decide)).1, ?_, ?_⟩
  · exact ((C2_seq_per_peer_amended ["A", "B"]
      [GwOp.broadcast, GwOp.broadcast] "A" (by decide)).2 (by decide) (by decide)).1
  · exact ((C2_seq_per_peer_amended ["A", "B"]
      [GwOp.broadcast, GwOp.broadcast] "A" (by decide)).2 (by decide) (by decide)).2

end Moltis
